import Mathlib

/-!
Verification of the soccer ball simulation core (`soccer-fyrox/src/ball.rs`):
single-axis ball physics, the pass-step estimator, the pass-targetability
heuristic, and the per-tick `Ball::update` with its ownership-transfer scan.

Positions and velocities are embedded as pairs of real numbers; the game's
`f32` arithmetic is read as exact real arithmetic.  Pool handles are embedded
as indices into a list of players (the Fyrox pool iterates occupied slots in
index order and keeps slots stable across `take_reserve`/`put_back`).
-/

open Classical

noncomputable section

namespace Soccer

/-- Modelled from the spec: per-tick multiplicative velocity decay factor
(`0 < DRAG < 1`); the configuration module holding the constant is not part of
the analysed sources, the concrete value is the reference game's. -/
def DRAG : ℝ := 98 / 100

/-- Modelled from the spec: fixed initial kick strength used by the pass-step
estimator (configuration module not in the analysed sources). -/
def KICK_STRENGTH : ℝ := 23 / 2

/-- Modelled from the spec: maximum distance at which a player is in
possession contact with the ball (x axis figure, used for the collision test). -/
def DRIBBLE_DIST_X : ℝ := 18

/-- Modelled from the spec: y-axis carry offset magnitude (elliptical carry). -/
def DRIBBLE_DIST_Y : ℝ := 16

/-- Modelled from the spec: half the level width (geometry constants are in the
game's configuration module, not in the analysed sources). -/
def HALF_LEVEL_W : ℝ := 500

/-- Modelled from the spec: half the level height. -/
def HALF_LEVEL_H : ℝ := 700

/-- Modelled from the spec: half the pitch width. -/
def HALF_PITCH_W : ℝ := 442

/-- Modelled from the spec: half the pitch height. -/
def HALF_PITCH_H : ℝ := 622

/-- Modelled from the spec: half the goal-mouth width. -/
def HALF_GOAL_W : ℝ := 93

/-- Modelled from the spec: goal-mouth width. -/
def GOAL_WIDTH : ℝ := 186

/-- Modelled from the spec: goal depth. -/
def GOAL_DEPTH : ℝ := 20

def PITCH_BOUNDS_X : ℝ × ℝ := (HALF_LEVEL_W - HALF_PITCH_W, HALF_LEVEL_W + HALF_PITCH_W)

def PITCH_BOUNDS_Y : ℝ × ℝ := (HALF_LEVEL_H - HALF_PITCH_H, HALF_LEVEL_H + HALF_PITCH_H)

def GOAL_BOUNDS_X : ℝ × ℝ := (HALF_LEVEL_W - HALF_GOAL_W, HALF_LEVEL_W + HALF_GOAL_W)

def GOAL_BOUNDS_Y : ℝ × ℝ :=
  (HALF_LEVEL_H - HALF_PITCH_H - GOAL_DEPTH, HALF_LEVEL_H + HALF_PITCH_H + GOAL_DEPTH)

structure Rect where
  x : ℝ
  y : ℝ
  w : ℝ
  h : ℝ

/-- Modelled from the spec: point-in-rectangle test of the port's pygame-style
`Rect` (implementation not under the analysed sources); pygame's `collidepoint`
is inclusive on the left/top edges and exclusive on the right/bottom edges. -/
def Rect.collidepoint (r : Rect) (px py : ℝ) : Prop :=
  r.x ≤ px ∧ px < r.x + r.w ∧ r.y ≤ py ∧ py < r.y + r.h

def PITCH_RECT : Rect := ⟨PITCH_BOUNDS_X.1, PITCH_BOUNDS_Y.1, HALF_PITCH_W * 2, HALF_PITCH_H * 2⟩

def GOAL_0_RECT : Rect := ⟨GOAL_BOUNDS_X.1, GOAL_BOUNDS_Y.1, GOAL_WIDTH, GOAL_DEPTH⟩

def GOAL_1_RECT : Rect := ⟨GOAL_BOUNDS_X.1, GOAL_BOUNDS_Y.2 - GOAL_DEPTH, GOAL_WIDTH, GOAL_DEPTH⟩

/-- Modelled from the spec: componentwise vector subtraction of the port's 2-D
vector type. -/
def vsub (a b : ℝ × ℝ) : ℝ × ℝ := (a.1 - b.1, a.2 - b.2)

/-- Modelled from the spec: scalar multiple of a 2-D vector. -/
def vscale (c : ℝ) (v : ℝ × ℝ) : ℝ × ℝ := (c * v.1, c * v.2)

/-- Modelled from the spec: standard 2-D dot product. -/
def dot (a b : ℝ × ℝ) : ℝ := a.1 * b.1 + a.2 * b.2

/-- Modelled from the spec: Euclidean length of a 2-D vector. -/
def vnorm (v : ℝ × ℝ) : ℝ := Real.sqrt (v.1 ^ 2 + v.2 ^ 2)

/-- Modelled from the spec: `safe_normalise` returns the zero vector and zero
length for a zero-length input instead of dividing by zero, and otherwise the
unit vector together with the length (vector module not in the analysed
sources). -/
def safe_normalise (v : ℝ × ℝ) : (ℝ × ℝ) × ℝ :=
  let length := vnorm v
  if length = 0 then ((0, 0), 0) else ((v.1 / length, v.2 / length), length)

/-- Modelled from the spec: direction-index trigonometry of the port's common
module; a facing direction is an eighth-of-a-turn index, consistent with the
carry offsets in `Ball::update` (x uses `sin`, y uses `-cos`). -/
def sin (x : ℕ) : ℝ := Real.sin ((x : ℝ) * Real.pi / 4)

/-- Modelled from the spec: cosine companion of `sin`, shifted by two
eighth-turns. -/
def cos (x : ℕ) : ℝ := sin (x + 2)

/-- Modelled from the spec: unit vector of a facing-direction index, matching
the carry-offset convention `(sin dir, -cos dir)`. -/
def angle_to_vec (dir : ℕ) : ℝ × ℝ := (sin dir, -cos dir)

/-- Ball physics for one axis: add the velocity to the position, undo the move
and negate the velocity when the new position is out of bounds, then apply
drag (`ball_physics` in `ball.rs`). -/
def ball_physics (pos vel : ℝ) (bounds : ℝ × ℝ) : ℝ × ℝ :=
  let pos1 := pos + vel
  let pv := if pos1 < bounds.1 ∨ bounds.2 < pos1 then (pos1 - vel, -vel) else (pos1, vel)
  (pv.1, pv.2 * DRAG)

/-- Loop body of the pass-step estimator `steps` in `ball.rs`: while distance
remains and the velocity is above the 0.25 threshold, subtract the velocity
from the distance, count a step, and apply drag.  Termination: each iteration
removes more than 1/4 from the distance, so `⌈4·distance⌉` decreases. -/
def steps_loop (distance vel : ℝ) : ℕ :=
  if h : 0 < distance ∧ 1 / 4 < vel then
    steps_loop (distance - vel) (vel * DRAG) + 1
  else 0
termination_by (⌈distance * 4⌉).toNat
decreasing_by
  have h2 : (distance * 4 : ℝ) ≤ (⌈distance * 4⌉ : ℤ) := Int.le_ceil _
  have h3 : ⌈(distance - vel) * 4⌉ ≤ ⌈distance * 4⌉ - 1 := by
    apply Int.ceil_le.mpr
    push_cast
    nlinarith [h.1, h.2]
  have h4 : (0 : ℤ) < ⌈distance * 4⌉ := Int.ceil_pos.mpr (by nlinarith [h.1])
  omega

/-- Number of physics steps for the ball to travel the given distance
(`steps` in `ball.rs`). -/
def steps (distance : ℝ) : ℕ := steps_loop distance KICK_STRENGTH

/-- Average of two numbers, snapping to the second when they differ by less
than 1 (`avg` in `ball.rs`). -/
def avg (a b : ℝ) : ℝ := if |b - a| < 1 then b else (a + b) / 2

/-- Membership of a point in the legal playing area: the pitch rectangle or
either goal rectangle (`on_pitch` in `ball.rs`). -/
def on_pitch (x y : ℝ) : Prop :=
  PITCH_RECT.collidepoint x y ∨ GOAL_0_RECT.collidepoint x y ∨ GOAL_1_RECT.collidepoint x y

structure Player where
  vpos : ℝ × ℝ
  dir : ℕ
  team : ℕ
  timer : ℤ

instance : Inhabited Player := ⟨⟨(0, 0), 0, 0, 0⟩⟩

structure Team where
  human : Bool
  active_control_player : Option ℕ

instance : Inhabited Team := ⟨⟨false, none⟩⟩

structure Ball where
  vpos : ℝ × ℝ
  vel : ℝ × ℝ
  owner : Option ℕ
  timer : ℤ
  shadow_vpos : ℝ × ℝ

structure Difficulty where
  holdoff_timer : ℤ

structure Game where
  ball : Ball
  players_pool : List Player
  teams : List Team
  difficulty : Difficulty

/-- Collision of the ball with player `p`: the player's hold-off timer has
expired (strictly negative) and the player is within `DRIBBLE_DIST_X` of the
ball (`Ball::collide` in `ball.rs`). -/
def Ball.collide (b : Ball) (p : Player) : Prop :=
  p.timer < 0 ∧ vnorm (vsub p.vpos b.vpos) ≤ DRIBBLE_DIST_X

/-- Pass-targetability heuristic `targetable` in `ball.rs`, as a proposition:
the function returns `true` iff (when the source's team is computer-controlled,
no pool player is an interceptor) and the final same-team / ahead / in-range /
facing conjunction holds. -/
def targetable (target source : Player) (g : Game) : Prop :=
  ((g.teams.getD source.team default).human = false →
    ∀ p ∈ g.players_pool,
      ¬ (p.team ≠ target.team ∧
         0 < (safe_normalise (vsub p.vpos source.vpos)).2 ∧
         (safe_normalise (vsub p.vpos source.vpos)).2 <
           (safe_normalise (vsub target.vpos source.vpos)).2 ∧
         dot (safe_normalise (vsub target.vpos source.vpos)).1
             (safe_normalise (vsub p.vpos source.vpos)).1 > 0.8)) ∧
  (target.team = source.team ∧
   0 < (safe_normalise (vsub target.vpos source.vpos)).2 ∧
   (safe_normalise (vsub target.vpos source.vpos)).2 < 300 ∧
   dot (safe_normalise (vsub target.vpos source.vpos)).1 (angle_to_vec source.dir) > 0.8)

/-- First phase of `Ball::update` after the timer decrement: dribble-carry when
owned (with dispossession when the blended position leaves the playing area),
axis physics with channel-dependent bounds when free. -/
def ball_update_move (g : Game) : Game :=
  match g.ball.owner with
  | some owner_h =>
    let owner := g.players_pool.getD owner_h default
    let new_x := avg g.ball.vpos.1 (owner.vpos.1 + DRIBBLE_DIST_X * sin owner.dir)
    let new_y := avg g.ball.vpos.2 (owner.vpos.2 - DRIBBLE_DIST_Y * cos owner.dir)
    if on_pitch new_x new_y then
      { g with ball := { g.ball with vpos := (new_x, new_y) } }
    else
      { g with
        players_pool := g.players_pool.set owner_h { owner with timer := 60 },
        ball := { g.ball with vel := vscale 3 (angle_to_vec owner.dir), owner := none } }
  | none =>
    let bounds_x := if |g.ball.vpos.2 - HALF_LEVEL_H| > HALF_PITCH_H then GOAL_BOUNDS_X else PITCH_BOUNDS_X
    let bounds_y := if |g.ball.vpos.1 - HALF_LEVEL_W| < HALF_GOAL_W then GOAL_BOUNDS_Y else PITCH_BOUNDS_Y
    let px := ball_physics g.ball.vpos.1 g.ball.vel.1 bounds_x
    let py := ball_physics g.ball.vpos.2 g.ball.vel.2 bounds_y
    { g with ball := { g.ball with vpos := (px.1, py.1), vel := (px.2, py.2) } }

/-- State threaded through the acquisition scan of `Ball::update`: the ball,
the teams, and the owner entry reserved out of the pool (`ball_owner_r`),
kept as its slot index together with the taken-out player value. -/
structure ScanState where
  ball : Ball
  teams : List Team
  owner_r : Option (ℕ × Player)

/-- One iteration of the acquisition scan of `Ball::update`.  The reserved
owner slot is skipped (the pool does not yield a slot that was taken out).  A
candidate acquires the ball when the reserved owner context is absent or on a
different team, and the ball collides with the candidate; the transfer stamps
the previous owner's timer to 60, sets the ball's hold-off timer, and points
both the ball's owner and the candidate team's active control player at the
candidate. -/
def scan_step (pool : List Player) (holdoff : ℤ) (s : ScanState) (i : ℕ) : ScanState :=
  if s.owner_r.elim False (fun op => op.1 = i) then s
  else
    let target := pool.getD i default
    if (¬ s.owner_r.elim False (fun op => op.2.team = target.team)) ∧ s.ball.collide target then
      { ball := { s.ball with timer := holdoff, owner := some i },
        teams := s.teams.set target.team
          { s.teams.getD target.team default with active_control_player := some i },
        owner_r := s.owner_r.map (fun op => (op.1, { op.2 with timer := 60 })) }
    else s

/-- Acquisition scan of `Ball::update`: reserve the owner out of the pool,
fold the scan step over all slots in index order, then put the (possibly
timer-stamped) owner entry back into its slot. -/
def ball_update_scan (g : Game) : Game :=
  let owner_r := g.ball.owner.map (fun h => (h, g.players_pool.getD h default))
  let s := (List.range g.players_pool.length).foldl
    (scan_step g.players_pool g.difficulty.holdoff_timer) ⟨g.ball, g.teams, owner_r⟩
  let pool' := match s.owner_r with
    | some op => g.players_pool.set op.1 op.2
    | none => g.players_pool
  { g with ball := s.ball, teams := s.teams, players_pool := pool' }

/-- Phases of `Ball::update` before the acquisition scan: decrement the ball's
timer, move the ball (carry or physics), and mirror the shadow position. -/
def pre_scan (g : Game) : Game :=
  let g1 := { g with ball := { g.ball with timer := g.ball.timer - 1 } }
  let g2 := ball_update_move g1
  { g2 with ball := { g2.ball with shadow_vpos := g2.ball.vpos } }

/-- One tick of `Ball::update` in `ball.rs`. -/
def Ball.update (g : Game) : Game := ball_update_scan (pre_scan g)

/-! Concrete states used by the counterexample and witness theorems. -/

/-- Ball used by the C4 theorems: at the origin, free, timer zero. -/
def c4_ball : Ball := ⟨(0, 0), (0, 0), none, 0, (0, 0)⟩

/-- Player at the origin whose hold-off timer is exactly zero. -/
def c4_player : Player := ⟨(0, 0), 0, 0, 0⟩

/-- Player at the origin whose hold-off timer is negative. -/
def c4_witness_player : Player := ⟨(0, 0), 0, 0, -1⟩

/-- Source of the C7 witness pass: team 0, at the origin. -/
def c7_source : Player := ⟨(0, 0), 0, 0, 0⟩

/-- Target of the C7 witness pass: teammate 100 units along the x axis. -/
def c7_target : Player := ⟨(100, 0), 0, 0, 0⟩

/-- Interceptor of the C7 witness pass: opponent halfway along the line. -/
def c7_interceptor : Player := ⟨(50, 0), 0, 1, 0⟩

/-- Game of the C7 witness: both teams computer-controlled, the interceptor in
the pool. -/
def c7_game : Game :=
  ⟨⟨(0, 0), (0, 0), none, 0, (0, 0)⟩, [c7_interceptor], [⟨false, none⟩, ⟨false, none⟩], ⟨120⟩⟩

/-- Source of the C8 witness pass: team 0, facing direction 2 (along +x). -/
def c8_source : Player := ⟨(0, 0), 2, 0, 0⟩

/-- Target of the C8 witness pass: teammate 100 units along the x axis. -/
def c8_target : Player := ⟨(100, 0), 0, 0, 0⟩

/-- Game of the C8 witness: the source's team is human-controlled. -/
def c8_game : Game :=
  ⟨⟨(0, 0), (0, 0), none, 0, (0, 0)⟩, [], [⟨true, none⟩], ⟨120⟩⟩

/-- Scan-invariant data of a scan state: the ball position together with the
reserved owner's slot index and team — the only parts of the threaded state
that the scan's acquisition condition reads. -/
def ScanState.info (s : ScanState) : (ℝ × ℝ) × Option (ℕ × ℕ) :=
  (s.ball.vpos, s.owner_r.map (fun op => (op.1, op.2.team)))

/-- Acquisition condition of one scan iteration, expressed through the
scan-invariant data: the slot is not the reserved one, the reserved owner (if
any) is on a different team, and the slot's player has an expired timer and is
within dribble distance of the ball. -/
def scan_qual_info (pool : List Player) (info : (ℝ × ℝ) × Option (ℕ × ℕ)) (i : ℕ) : Prop :=
  ¬ info.2.elim False (fun q => q.1 = i) ∧
  ¬ info.2.elim False (fun q => q.2 = (pool.getD i default).team) ∧
  (pool.getD i default).timer < 0 ∧
  vnorm (vsub (pool.getD i default).vpos info.1) ≤ DRIBBLE_DIST_X

/-- Slots of the players that acquire the ball during the acquisition scan of
`ball_update_scan g`, in iteration order. -/
def scan_qualifiers (g : Game) : List ℕ :=
  (List.range g.players_pool.length).filter (fun i =>
    decide (scan_qual_info g.players_pool
      (g.ball.vpos, g.ball.owner.map (fun h => (h, (g.players_pool.getD h default).team))) i))

/-- C1 failing input: an unowned ball at pitch centre and two players of the
same team standing on it, both with expired timers. -/
def c1_game : Game :=
  ⟨⟨(500, 700), (0, 0), none, 0, (500, 700)⟩,
   [⟨(500, 700), 0, 0, -1⟩, ⟨(500, 700), 0, 0, -1⟩],
   [⟨false, none⟩], ⟨120⟩⟩

/-- C2 counterexample input: player 0 owns the ball with the ball's own
cooldown timer far from expiry, while an eligible opponent stands on the
ball's carry position. -/
def c2_game : Game :=
  ⟨⟨(500, 700), (0, 0), some 0, 100, (500, 700)⟩,
   [⟨(500, 700), 0, 0, -5⟩, ⟨(500, 692), 0, 1, -1⟩],
   [⟨false, none⟩, ⟨false, none⟩], ⟨120⟩⟩

/-- State of the C2 counterexample game after the carry phases of the tick,
just before the acquisition scan. -/
def c2post : Game :=
  ⟨⟨(500, 692), (0, 0), some 0, 100 - 1, (500, 692)⟩,
   [⟨(500, 700), 0, 0, -5⟩, ⟨(500, 692), 0, 1, -1⟩],
   [⟨false, none⟩, ⟨false, none⟩], ⟨120⟩⟩

/-- C3 counterexample input: an unowned ball at pitch centre and two eligible
players of different teams standing on it. -/
def c3_game : Game :=
  ⟨⟨(500, 700), (0, 0), none, 0, (500, 700)⟩,
   [⟨(500, 700), 0, 0, -1⟩, ⟨(500, 700), 0, 1, -1⟩],
   [⟨false, none⟩, ⟨false, none⟩], ⟨120⟩⟩

/-- C5 counterexample input: player 0 dribbles the ball far off the pitch
while an eligible opponent (player 1) stands on the ball's position. -/
def c5_game : Game :=
  ⟨⟨(-100, -116), (0, 0), some 0, 7, (-100, -116)⟩,
   [⟨(-100, -100), 0, 0, -5⟩, ⟨(-100, -116), 0, 1, -1⟩],
   [⟨false, none⟩, ⟨false, none⟩], ⟨120⟩⟩

/-- C5 witness input: player 0 dribbles the ball far off the pitch with no
other player anywhere near it. -/
def c5w_game : Game :=
  ⟨⟨(-100, -116), (0, 0), some 0, 7, (-100, -116)⟩,
   [⟨(-100, -100), 0, 0, -5⟩],
   [⟨false, none⟩], ⟨120⟩⟩

/-- State of the C5 counterexample game after the dispossession phases of the
tick, just before the acquisition scan. -/
def c5post : Game :=
  ⟨⟨(-100, -116), (0, -3), none, 7 - 1, (-100, -116)⟩,
   [⟨(-100, -100), 0, 0, 60⟩, ⟨(-100, -116), 0, 1, -1⟩],
   [⟨false, none⟩, ⟨false, none⟩], ⟨120⟩⟩

/-- Invariant relating ball ownership to team control: whenever the ball has
an owner, the owner's handle is a valid pool slot and the owner's team's
active-control-player reference points at the owner. -/
def active_control_inv (g : Game) : Prop :=
  ∀ h, g.ball.owner = some h →
    h < g.players_pool.length ∧
    (g.teams.getD (g.players_pool.getD h default).team default).active_control_player = some h

/-- Game of the C10 witness: one human team whose player 0 owns the ball at
pitch centre and is the team's active control player. -/
def c10_game : Game :=
  ⟨⟨(500, 700), (0, 0), some 0, 5, (500, 700)⟩,
   [⟨(500, 700), 0, 0, -3⟩],
   [⟨true, some 0⟩], ⟨120⟩⟩

/-- State of the C10 witness game after the carry phases of the tick, just
before the acquisition scan. -/
def c10post : Game :=
  ⟨⟨(500, 692), (0, 0), some 0, 5 - 1, (500, 692)⟩,
   [⟨(500, 700), 0, 0, -3⟩],
   [⟨true, some 0⟩], ⟨120⟩⟩

end Soccer

namespace Soccer

theorem sin_zero_dir : sin 0 = 0 := by
  simp [sin]

theorem sin_two_dir : sin 2 = 1 := by
  rw [sin]
  have h : ((2 : ℕ) : ℝ) * Real.pi / 4 = Real.pi / 2 := by push_cast; ring
  rw [h, Real.sin_pi_div_two]

theorem cos_zero_dir : cos 0 = 1 := by
  simp [cos, sin_two_dir]

theorem cos_as_real (x : ℕ) : cos x = Real.cos ((x : ℝ) * Real.pi / 4) := by
  have h : (((x + 2 : ℕ)) : ℝ) * Real.pi / 4 = (x : ℝ) * Real.pi / 4 + Real.pi / 2 := by
    push_cast; ring
  rw [cos, sin, h, Real.sin_add_pi_div_two]

theorem vnorm_angle_to_vec (d : ℕ) : vnorm (angle_to_vec d) = 1 := by
  rw [angle_to_vec, vnorm, cos_as_real, sin]
  have h : Real.sin ((d : ℝ) * Real.pi / 4) ^ 2 + (-Real.cos ((d : ℝ) * Real.pi / 4)) ^ 2 = 1 := by
    have := Real.sin_sq_add_cos_sq ((d : ℝ) * Real.pi / 4)
    nlinarith [this]
  rw [h, Real.sqrt_one]

theorem vnorm_vscale (c : ℝ) (v : ℝ × ℝ) : vnorm (vscale c v) = |c| * vnorm v := by
  rw [vnorm, vscale, vnorm]
  have h : (c * v.1) ^ 2 + (c * v.2) ^ 2 = c ^ 2 * (v.1 ^ 2 + v.2 ^ 2) := by ring
  rw [h, Real.sqrt_mul (sq_nonneg c), Real.sqrt_sq_eq_abs]

theorem vnorm_x_axis (x : ℝ) : vnorm (x, 0) = |x| := by
  rw [vnorm]
  simp [Real.sqrt_sq_eq_abs]

/-- C6: the single-axis physics step returns `(pos + vel, vel * DRAG)` when the
moved position stays within the bounds, and `(pos, -vel * DRAG)` — the
original position unchanged, the velocity negated before drag — when the
moved position would leave them. -/
theorem ball_physics_spec :
    (∀ pos vel lo hi : ℝ, lo ≤ pos + vel → pos + vel ≤ hi →
      ball_physics pos vel (lo, hi) = (pos + vel, vel * DRAG)) ∧
    (∀ pos vel lo hi : ℝ, (pos + vel < lo ∨ hi < pos + vel) →
      ball_physics pos vel (lo, hi) = (pos, -vel * DRAG)) := by
  constructor
  · intro pos vel lo hi h1 h2
    simp only [ball_physics]
    rw [if_neg (by push_neg; exact ⟨h1, h2⟩)]
  · intro pos vel lo hi h
    simp only [ball_physics]
    rw [if_pos h]
    have hp : pos + vel - vel = pos := by ring
    rw [hp]

/-- Witness for C6 at concrete inputs: an in-bounds step and an out-of-bounds
step. -/
theorem ball_physics_spec_witness :
    ball_physics 1 2 (0, 10) = (3, 2 * DRAG) ∧
    ball_physics 9 5 (0, 10) = (9, -(5 * DRAG)) := by
  constructor
  · have h := ball_physics_spec.1 1 2 0 10 (by norm_num) (by norm_num)
    norm_num at h
    exact h
  · have h := ball_physics_spec.2 9 5 0 10 (by norm_num)
    norm_num at h
    exact h

theorem steps_loop_unfold (d v : ℝ) :
    steps_loop d v = if 0 < d ∧ 1 / 4 < v then steps_loop (d - v) (v * DRAG) + 1 else 0 := by
  rw [steps_loop]
  split_ifs with h
  · rfl
  · rfl

theorem steps_loop_mono_aux :
    ∀ n : ℕ, ∀ d1 d2 v : ℝ, (⌈d2 * 4⌉).toNat ≤ n → d1 ≤ d2 →
      steps_loop d1 v ≤ steps_loop d2 v := by
  intro n
  induction n with
  | zero =>
    intro d1 d2 v hn h12
    have hd2 : d2 ≤ 0 := by
      by_contra hpos
      push_neg at hpos
      have h4 : (0 : ℤ) < ⌈d2 * 4⌉ := Int.ceil_pos.mpr (by linarith)
      omega
    have hd1 : d1 ≤ 0 := le_trans h12 hd2
    rw [steps_loop_unfold d1, steps_loop_unfold d2,
        if_neg (fun hc => absurd hc.1 (not_lt.mpr hd1)),
        if_neg (fun hc => absurd hc.1 (not_lt.mpr hd2))]
  | succ n ih =>
    intro d1 d2 v hn h12
    by_cases h2 : 0 < d2 ∧ 1 / 4 < v
    · have hmeas : (⌈(d2 - v) * 4⌉).toNat ≤ n := by
        have hle : (d2 * 4 : ℝ) ≤ (⌈d2 * 4⌉ : ℤ) := Int.le_ceil _
        have h3 : ⌈(d2 - v) * 4⌉ ≤ ⌈d2 * 4⌉ - 1 := by
          apply Int.ceil_le.mpr
          push_cast
          nlinarith [h2.1, h2.2]
        have h4 : (0 : ℤ) < ⌈d2 * 4⌉ := Int.ceil_pos.mpr (by nlinarith [h2.1])
        omega
      by_cases h1 : 0 < d1 ∧ 1 / 4 < v
      · rw [steps_loop_unfold d1, steps_loop_unfold d2, if_pos h1, if_pos h2]
        have := ih (d1 - v) (d2 - v) (v * DRAG) hmeas (by linarith)
        omega
      · rw [steps_loop_unfold d1, if_neg h1]
        exact Nat.zero_le _
    · have hd1 : ¬ (0 < d1 ∧ 1 / 4 < v) := by
        intro hc
        exact h2 ⟨by linarith [hc.1], hc.2⟩
      rw [steps_loop_unfold d1, if_neg hd1]
      exact Nat.zero_le _

/-- C9: the pass-step estimator returns 0 for distance 0, and is monotonically
non-decreasing in the distance; its loop terminates for every input (the
Lean definition is by well-founded recursion, each iteration consuming more
than a quarter unit of the remaining distance). -/
theorem steps_zero_and_mono :
    steps 0 = 0 ∧ ∀ d1 d2 : ℝ, d1 ≤ d2 → steps d1 ≤ steps d2 := by
  constructor
  · show steps_loop 0 KICK_STRENGTH = 0
    rw [steps_loop_unfold, if_neg (fun hc => absurd hc.1 (lt_irrefl 0))]
  · intro d1 d2 h12
    exact steps_loop_mono_aux (⌈d2 * 4⌉).toNat d1 d2 KICK_STRENGTH le_rfl h12

/-- Witness for C9: monotonicity applied at distances 1 and 2. -/
theorem steps_zero_and_mono_witness : steps 0 = 0 ∧ steps 1 ≤ steps 2 :=
  ⟨steps_zero_and_mono.1, steps_zero_and_mono.2 1 2 (by norm_num)⟩

/-- C4 counterexample: a player whose hold-off timer is exactly zero is within
dribble distance of the ball and still fails the collision test, because
`Ball::collide` requires a strictly negative timer. -/
theorem zero_timer_player_does_not_collide :
    c4_player.timer = 0 ∧
    vnorm (vsub c4_player.vpos c4_ball.vpos) ≤ DRIBBLE_DIST_X ∧
    ¬ c4_ball.collide c4_player := by
  refine ⟨rfl, ?_, ?_⟩
  · norm_num [c4_player, c4_ball, vnorm, vsub, DRIBBLE_DIST_X]
  · intro h
    have ht := h.1
    norm_num [c4_player] at ht

/-- C4 amended: a player whose hold-off timer is strictly negative and who is
within dribble distance of the ball passes the collision test. -/
theorem negative_timer_within_dribble_collides (b : Ball) (p : Player)
    (ht : p.timer < 0) (hd : vnorm (vsub p.vpos b.vpos) ≤ DRIBBLE_DIST_X) :
    b.collide p :=
  ⟨ht, hd⟩

/-- Witness for the amended C4 at a concrete ball and player. -/
theorem negative_timer_within_dribble_collides_witness :
    c4_ball.collide c4_witness_player := by
  apply negative_timer_within_dribble_collides
  · norm_num [c4_witness_player]
  · norm_num [c4_witness_player, c4_ball, vnorm, vsub, DRIBBLE_DIST_X]

theorem safe_normalise_pos_x (x : ℝ) (hx : 0 < x) : safe_normalise (x, 0) = ((1, 0), x) := by
  simp only [safe_normalise]
  have hn : vnorm (x, 0) = x := by rw [vnorm_x_axis, abs_of_pos hx]
  rw [hn, if_neg (ne_of_gt hx)]
  rw [div_self (ne_of_gt hx)]
  norm_num

theorem cos_two_dir : cos 2 = 0 := by
  rw [cos_as_real]
  have h : ((2 : ℕ) : ℝ) * Real.pi / 4 = Real.pi / 2 := by push_cast; ring
  rw [h, Real.cos_pi_div_two]

theorem angle_to_vec_two : angle_to_vec 2 = (1, 0) := by
  rw [angle_to_vec, sin_two_dir, cos_two_dir]
  norm_num

/-- C7: for a computer-controlled source, `targetable` returns false whenever
some pool player on the team opposing the source lies strictly between source
and target (`0 < d1 < d0`) at a similar angle (`dot v0 v1 > 0.8`). -/
theorem interceptor_blocks_pass (target source : Player) (g : Game) (p : Player)
    (hcpu : (g.teams.getD source.team default).human = false)
    (hp : p ∈ g.players_pool)
    (hteam : p.team ≠ source.team)
    (hd1 : 0 < (safe_normalise (vsub p.vpos source.vpos)).2)
    (hlt : (safe_normalise (vsub p.vpos source.vpos)).2 <
           (safe_normalise (vsub target.vpos source.vpos)).2)
    (hdot : dot (safe_normalise (vsub target.vpos source.vpos)).1
                (safe_normalise (vsub p.vpos source.vpos)).1 > 0.8) :
    ¬ targetable target source g := by
  intro htgt
  rcases htgt with ⟨hloop, hfin⟩
  have hsame : target.team = source.team := hfin.1
  exact hloop hcpu p hp ⟨by rw [hsame]; exact hteam, hd1, hlt, hdot⟩

/-- Witness for C7: an opposing interceptor standing halfway between source
and target makes the target untargetable for a computer-controlled source. -/
theorem interceptor_blocks_pass_witness :
    c7_interceptor ∈ c7_game.players_pool ∧
    ¬ targetable c7_target c7_source c7_game := by
  refine ⟨by simp [c7_game], ?_⟩
  have h1 : safe_normalise (vsub c7_interceptor.vpos c7_source.vpos) = ((1, 0), 50) := by
    have hv : vsub c7_interceptor.vpos c7_source.vpos = (50, 0) := by
      norm_num [vsub, c7_interceptor, c7_source]
    rw [hv, safe_normalise_pos_x 50 (by norm_num)]
  have h0 : safe_normalise (vsub c7_target.vpos c7_source.vpos) = ((1, 0), 100) := by
    have hv : vsub c7_target.vpos c7_source.vpos = (100, 0) := by
      norm_num [vsub, c7_target, c7_source]
    rw [hv, safe_normalise_pos_x 100 (by norm_num)]
  apply interceptor_blocks_pass c7_target c7_source c7_game c7_interceptor
  · rfl
  · simp [c7_game]
  · norm_num [c7_interceptor, c7_source]
  · rw [h1]; norm_num
  · rw [h1, h0]; norm_num
  · rw [h1, h0]; norm_num [dot]

/-- C8: for a source on a human-controlled team the interception loop is
skipped, and `targetable` holds iff the target is a teammate, strictly ahead,
within range 300, and within the facing cone (`dot > 0.8`); a target
coincident with the source is never targetable. -/
theorem human_targetable_iff (target source : Player) (g : Game)
    (hhuman : (g.teams.getD source.team default).human = true) :
    (targetable target source g ↔
      (target.team = source.team ∧
       0 < (safe_normalise (vsub target.vpos source.vpos)).2 ∧
       (safe_normalise (vsub target.vpos source.vpos)).2 < 300 ∧
       dot (safe_normalise (vsub target.vpos source.vpos)).1 (angle_to_vec source.dir) > 0.8)) ∧
    (target.vpos = source.vpos → ¬ targetable target source g) := by
  constructor
  · constructor
    · intro h
      exact h.2
    · intro h
      refine ⟨?_, h⟩
      intro hcf
      rw [hhuman] at hcf
      exact absurd hcf (by simp)
  · intro hco htgt
    have h0 : vsub target.vpos source.vpos = (0, 0) := by
      rw [hco]; simp [vsub]
    have hz : (safe_normalise (vsub target.vpos source.vpos)).2 = 0 := by
      rw [h0]
      norm_num [safe_normalise, vnorm]
    have h2 := htgt.2.2.1
    rw [hz] at h2
    exact lt_irrefl 0 h2

/-- Witness for C8: a teammate 100 units straight ahead of a human-controlled
source is targetable. -/
theorem human_targetable_iff_witness : targetable c8_target c8_source c8_game := by
  have h0 : safe_normalise (vsub c8_target.vpos c8_source.vpos) = ((1, 0), 100) := by
    have hv : vsub c8_target.vpos c8_source.vpos = (100, 0) := by
      norm_num [vsub, c8_target, c8_source]
    rw [hv, safe_normalise_pos_x 100 (by norm_num)]
  apply (human_targetable_iff c8_target c8_source c8_game rfl).1.mpr
  refine ⟨rfl, ?_, ?_, ?_⟩
  · rw [h0]; norm_num
  · rw [h0]; norm_num
  · rw [h0]
    have hd : c8_source.dir = 2 := rfl
    rw [hd, angle_to_vec_two]
    norm_num [dot]

theorem scan_qual_info_iff (pool : List Player) (s : ScanState) (i : ℕ) :
    scan_qual_info pool s.info i ↔
      (¬ s.owner_r.elim False (fun op => op.1 = i)) ∧
      ((¬ s.owner_r.elim False (fun op => op.2.team = (pool.getD i default).team)) ∧
       s.ball.collide (pool.getD i default)) := by
  cases hor : s.owner_r with
  | none => simp [scan_qual_info, ScanState.info, hor, Ball.collide, and_assoc]
  | some op => simp [scan_qual_info, ScanState.info, hor, Ball.collide, and_assoc]

theorem scan_step_info (pool : List Player) (ho : ℤ) (s : ScanState) (i : ℕ) :
    (scan_step pool ho s i).info = s.info := by
  simp only [scan_step]
  split_ifs with h1 h2
  · rfl
  · cases hor : s.owner_r with
    | none => simp [ScanState.info, hor]
    | some op => simp [ScanState.info, hor]
  · rfl

theorem scan_step_of_not_qual (pool : List Player) (ho : ℤ) (s : ScanState) (i : ℕ)
    (h : ¬ scan_qual_info pool s.info i) : scan_step pool ho s i = s := by
  simp only [scan_step]
  split_ifs with h1 h2
  · rfl
  · exact absurd ((scan_qual_info_iff pool s i).mpr ⟨h1, h2⟩) h
  · rfl

theorem scan_step_of_qual (pool : List Player) (ho : ℤ) (s : ScanState) (i : ℕ)
    (h : scan_qual_info pool s.info i) :
    scan_step pool ho s i =
      { ball := { s.ball with timer := ho, owner := some i },
        teams := s.teams.set (pool.getD i default).team
          { s.teams.getD (pool.getD i default).team default with active_control_player := some i },
        owner_r := s.owner_r.map (fun op => (op.1, { op.2 with timer := 60 })) } := by
  rw [scan_qual_info_iff] at h
  simp only [scan_step]
  rw [if_neg h.1, if_pos h.2]

theorem scan_fold_info (pool : List Player) (ho : ℤ) :
    ∀ (L : List ℕ) (s : ScanState),
      (L.foldl (scan_step pool ho) s).info = s.info := by
  intro L
  induction L with
  | nil => intro s; rfl
  | cons i L ih =>
    intro s
    rw [List.foldl_cons, ih, scan_step_info]

theorem getLast_elim_cons (a : ℕ) (xs : List ℕ) (d : Option ℕ) :
    (a :: xs).getLast?.elim d some = xs.getLast?.elim (some a) some := by
  cases xs with
  | nil => rfl
  | cons b ys =>
    rw [List.getLast?_cons_cons]
    have h : (b :: ys).getLast?.isSome := by
      rw [List.getLast?_isSome]
      simp
    obtain ⟨x, hx⟩ := Option.isSome_iff_exists.mp h
    rw [hx]
    rfl

theorem scan_fold_owner (pool : List Player) (ho : ℤ) :
    ∀ (L : List ℕ) (s : ScanState),
      (L.foldl (scan_step pool ho) s).ball.owner =
        (L.filter (fun i => decide (scan_qual_info pool s.info i))).getLast?.elim
          s.ball.owner some := by
  intro L
  induction L with
  | nil => intro s; rfl
  | cons i L ih =>
    intro s
    rw [List.foldl_cons, ih, scan_step_info]
    by_cases h : scan_qual_info pool s.info i
    · rw [List.filter_cons_of_pos (by exact decide_eq_true h)]
      rw [getLast_elim_cons]
      rw [scan_step_of_qual pool ho s i h]
    · rw [List.filter_cons_of_neg (by simpa using h)]
      rw [scan_step_of_not_qual pool ho s i h]

theorem scan_fold_id (pool : List Player) (ho : ℤ) :
    ∀ (L : List ℕ) (s : ScanState),
      (∀ i ∈ L, ¬ scan_qual_info pool s.info i) →
      L.foldl (scan_step pool ho) s = s := by
  intro L
  induction L with
  | nil => intro s _; rfl
  | cons i L ih =>
    intro s hL
    rw [List.foldl_cons, scan_step_of_not_qual pool ho s i (hL i (by simp))]
    exact ih s (fun j hj => hL j (by simp [hj]))

theorem ball_update_scan_owner (g : Game) :
    (ball_update_scan g).ball.owner =
      (scan_qualifiers g).getLast?.elim g.ball.owner some := by
  simp only [ball_update_scan]
  have hinfo :
      (⟨g.ball, g.teams, g.ball.owner.map (fun h => (h, g.players_pool.getD h default))⟩ :
        ScanState).info =
      (g.ball.vpos, g.ball.owner.map (fun h => (h, (g.players_pool.getD h default).team))) := by
    cases hO : g.ball.owner with
    | none => simp [ScanState.info, hO]
    | some h => simp [ScanState.info, hO]
  rw [scan_fold_owner, hinfo]
  rfl

theorem pre_scan_center_free (bt : ℤ) (pool : List Player) (teams : List Team)
    (diff : Difficulty) :
    pre_scan ⟨⟨(500, 700), (0, 0), none, bt, (500, 700)⟩, pool, teams, diff⟩ =
      ⟨⟨(500, 700), (0, 0), none, bt - 1, (500, 700)⟩, pool, teams, diff⟩ := by
  simp only [pre_scan, ball_update_move]
  norm_num [ball_physics, PITCH_BOUNDS_X, PITCH_BOUNDS_Y, GOAL_BOUNDS_X, GOAL_BOUNDS_Y,
    HALF_LEVEL_W, HALF_LEVEL_H, HALF_PITCH_W, HALF_PITCH_H, HALF_GOAL_W, DRAG]

theorem pre_scan_c1 :
    pre_scan c1_game =
      ⟨⟨(500, 700), (0, 0), none, 0 - 1, (500, 700)⟩,
       c1_game.players_pool, c1_game.teams, c1_game.difficulty⟩ :=
  pre_scan_center_free 0 c1_game.players_pool c1_game.teams c1_game.difficulty

theorem c1_qual_zero :
    scan_qual_info c1_game.players_pool ((500, 700), none) 0 := by
  norm_num [scan_qual_info, c1_game, vnorm, vsub, DRIBBLE_DIST_X]

theorem c1_qual_one :
    scan_qual_info c1_game.players_pool ((500, 700), none) 1 := by
  norm_num [scan_qual_info, c1_game, vnorm, vsub, DRIBBLE_DIST_X]

/-- C1 evaluated at the failing input: both players are on the same team; the
scan hands the ball to player 0 at its first iteration, yet player 1 — on the
very team that now owns the ball — takes it again in the same scan, because
the owner context was captured before the loop and is never re-read. -/
theorem stale_owner_context_same_team_reacquires :
    (c1_game.players_pool.getD 0 default).team = (c1_game.players_pool.getD 1 default).team ∧
    (scan_step c1_game.players_pool 120
       ⟨(pre_scan c1_game).ball, (pre_scan c1_game).teams, none⟩ 0).ball.owner = some 0 ∧
    (Ball.update c1_game).ball.owner = some 1 := by
  refine ⟨rfl, ?_, ?_⟩
  · rw [pre_scan_c1]
    rw [scan_step_of_qual _ _ _ _ (by exact c1_qual_zero)]
  · show (ball_update_scan (pre_scan c1_game)).ball.owner = some 1
    rw [ball_update_scan_owner]
    have hqlist : scan_qualifiers (pre_scan c1_game) = [0, 1] := by
      rw [pre_scan_c1]
      simp only [scan_qualifiers]
      rw [show (c1_game.players_pool.length) = 2 from rfl]
      rw [show List.range 2 = [0, 1] from rfl]
      rw [List.filter_cons_of_pos (by exact decide_eq_true c1_qual_zero),
          List.filter_cons_of_pos (by exact decide_eq_true c1_qual_one),
          List.filter_nil]
    rw [hqlist]
    rfl

theorem pre_scan_c3 :
    pre_scan c3_game =
      ⟨⟨(500, 700), (0, 0), none, 0 - 1, (500, 700)⟩,
       c3_game.players_pool, c3_game.teams, c3_game.difficulty⟩ :=
  pre_scan_center_free 0 c3_game.players_pool c3_game.teams c3_game.difficulty

theorem c3_qual_zero :
    scan_qual_info c3_game.players_pool ((500, 700), none) 0 := by
  norm_num [scan_qual_info, c3_game, vnorm, vsub, DRIBBLE_DIST_X]

theorem c3_qual_one :
    scan_qual_info c3_game.players_pool ((500, 700), none) 1 := by
  norm_num [scan_qual_info, c3_game, vnorm, vsub, DRIBBLE_DIST_X]

/-- C3 counterexample: with two candidates qualifying in the same tick (no
owner, both eligible and in range), the final owner is the second of them in
pool order, not the first — the scan has no break and later qualifiers
overwrite earlier ones. -/
theorem first_qualifier_not_final_owner :
    c3_game.ball.owner = none ∧
    scan_qual_info c3_game.players_pool ((500, 700), none) 0 ∧
    scan_qual_info c3_game.players_pool ((500, 700), none) 1 ∧
    (Ball.update c3_game).ball.owner = some 1 ∧
    (Ball.update c3_game).ball.owner ≠ some 0 := by
  have howner : (Ball.update c3_game).ball.owner = some 1 := by
    show (ball_update_scan (pre_scan c3_game)).ball.owner = some 1
    rw [ball_update_scan_owner]
    have hqlist : scan_qualifiers (pre_scan c3_game) = [0, 1] := by
      rw [pre_scan_c3]
      simp only [scan_qualifiers]
      rw [show (c3_game.players_pool.length) = 2 from rfl]
      rw [show List.range 2 = [0, 1] from rfl]
      rw [List.filter_cons_of_pos (by exact decide_eq_true c3_qual_zero),
          List.filter_cons_of_pos (by exact decide_eq_true c3_qual_one),
          List.filter_nil]
    rw [hqlist]
    rfl
  exact ⟨rfl, c3_qual_zero, c3_qual_one, howner, by rw [howner]; simp⟩

/-- C3 amended: the owner after `Ball::update` is the last (not the first)
qualifying candidate of the acquisition scan in pool iteration order — with
qualification judged against the owner context captured when the scan starts —
or the pre-scan owner when no candidate qualifies. -/
theorem scan_owner_is_last_qualifier (g : Game) :
    (Ball.update g).ball.owner =
      (scan_qualifiers (pre_scan g)).getLast?.elim (pre_scan g).ball.owner some :=
  ball_update_scan_owner (pre_scan g)

theorem pre_scan_c2 : pre_scan c2_game = c2post := by
  simp only [pre_scan, ball_update_move, c2_game]
  norm_num [avg, on_pitch, Rect.collidepoint, PITCH_RECT, GOAL_0_RECT, GOAL_1_RECT,
    PITCH_BOUNDS_X, PITCH_BOUNDS_Y, GOAL_BOUNDS_X, GOAL_BOUNDS_Y,
    HALF_LEVEL_W, HALF_LEVEL_H, HALF_PITCH_W, HALF_PITCH_H, HALF_GOAL_W, GOAL_WIDTH,
    GOAL_DEPTH, DRIBBLE_DIST_X, DRIBBLE_DIST_Y, sin_zero_dir, cos_zero_dir, c2post]

theorem c2_not_qual_zero :
    ¬ scan_qual_info c2post.players_pool ((500, 692), some (0, 0)) 0 := by
  norm_num [scan_qual_info, c2post]

theorem c2_qual_one :
    scan_qual_info c2post.players_pool ((500, 692), some (0, 0)) 1 := by
  norm_num [scan_qual_info, c2post, vnorm, vsub, DRIBBLE_DIST_X]

/-- C2 counterexample: the ball's own cooldown timer is positive before the
tick and still positive during the scan, yet the acquisition scan transfers
the ball from its owner (player 0) to an opponent (player 1) — the scan never
reads the ball's timer; only each candidate's own timer gates. -/
theorem positive_ball_timer_does_not_block_transfer :
    0 < c2_game.ball.timer ∧
    0 < (pre_scan c2_game).ball.timer ∧
    c2_game.ball.owner = some 0 ∧
    (Ball.update c2_game).ball.owner = some 1 := by
  refine ⟨by norm_num [c2_game], ?_, rfl, ?_⟩
  · rw [pre_scan_c2]
    norm_num [c2post]
  · show (ball_update_scan (pre_scan c2_game)).ball.owner = some 1
    rw [pre_scan_c2, ball_update_scan_owner]
    have hqlist : scan_qualifiers c2post = [1] := by
      simp only [scan_qualifiers]
      rw [show (c2post.players_pool.length) = 2 from rfl]
      rw [show List.range 2 = [0, 1] from rfl]
      rw [List.filter_cons_of_neg (by simpa using c2_not_qual_zero),
          List.filter_cons_of_pos (by exact decide_eq_true c2_qual_one),
          List.filter_nil]
    rw [hqlist]
    rfl

theorem pre_scan_fields_timer (g : Game) (t : ℤ) :
    (pre_scan { g with ball := { g.ball with timer := t } }).ball.vpos =
      (pre_scan g).ball.vpos ∧
    (pre_scan { g with ball := { g.ball with timer := t } }).ball.owner =
      (pre_scan g).ball.owner ∧
    (pre_scan { g with ball := { g.ball with timer := t } }).players_pool =
      (pre_scan g).players_pool := by
  cases hO : g.ball.owner with
  | some h =>
    simp only [pre_scan, ball_update_move]
    simp only [hO]
    split_ifs with h1 <;> simp
  | none =>
    simp only [pre_scan, ball_update_move]
    simp only [hO]
    simp

theorem scan_qualifiers_congr (g g' : Game)
    (hp : g.players_pool = g'.players_pool) (hv : g.ball.vpos = g'.ball.vpos)
    (ho : g.ball.owner = g'.ball.owner) : scan_qualifiers g = scan_qualifiers g' := by
  simp only [scan_qualifiers, hp, hv, ho]

/-- C2 amended: the ball's internal cooldown timer is decremented each tick
and is stamped with the difficulty hold-off value on a transfer, but it does
not gate the acquisition scan — the owner computed by `Ball::update` is the
same whatever value the ball's timer holds, so a positive ball timer does not
prevent an ownership change (only each candidate's own timer gates). -/
theorem owner_after_update_independent_of_ball_timer (g : Game) (t1 t2 : ℤ) :
    (Ball.update { g with ball := { g.ball with timer := t1 } }).ball.owner =
    (Ball.update { g with ball := { g.ball with timer := t2 } }).ball.owner := by
  have e1 := pre_scan_fields_timer g t1
  have e2 := pre_scan_fields_timer g t2
  show (ball_update_scan (pre_scan _)).ball.owner = (ball_update_scan (pre_scan _)).ball.owner
  rw [ball_update_scan_owner, ball_update_scan_owner]
  rw [scan_qualifiers_congr _ _ (e1.2.2.trans e2.2.2.symm) (e1.1.trans e2.1.symm)
      (e1.2.1.trans e2.2.1.symm)]
  rw [e1.2.1.trans e2.2.1.symm]

theorem getD_set_self {α : Type} [Inhabited α] (l : List α) (n : ℕ) (a : α)
    (h : n < l.length) : (l.set n a).getD n default = a := by
  rw [List.getD_eq_getElem?_getD, List.getElem?_set_self', List.getElem?_eq_getElem h]
  rfl

theorem getD_set_ne {α : Type} [Inhabited α] (l : List α) (m n : ℕ) (a : α)
    (h : m ≠ n) : (l.set m a).getD n default = l.getD n default := by
  rw [List.getD_eq_getElem?_getD, List.getD_eq_getElem?_getD, List.getElem?_set_ne h]

theorem getD_mem {α : Type} [Inhabited α] (l : List α) (n : ℕ) (h : n < l.length) :
    l.getD n default ∈ l := by
  rw [List.getD_eq_getElem l default h]
  exact List.getElem_mem h

theorem pre_scan_dispossess (g : Game) (h : ℕ)
    (hown : g.ball.owner = some h)
    (hoff : ¬ on_pitch
       (avg g.ball.vpos.1 ((g.players_pool.getD h default).vpos.1 +
          DRIBBLE_DIST_X * sin (g.players_pool.getD h default).dir))
       (avg g.ball.vpos.2 ((g.players_pool.getD h default).vpos.2 -
          DRIBBLE_DIST_Y * cos (g.players_pool.getD h default).dir))) :
    pre_scan g =
      { g with
        players_pool := g.players_pool.set h
          { g.players_pool.getD h default with timer := 60 },
        ball := { g.ball with
          vel := vscale 3 (angle_to_vec (g.players_pool.getD h default).dir),
          owner := none,
          timer := g.ball.timer - 1,
          shadow_vpos := g.ball.vpos } } := by
  simp only [pre_scan, ball_update_move]
  simp only [hown]
  rw [if_neg hoff]

theorem ball_update_scan_no_qual (g : Game)
    (hO : g.ball.owner = none)
    (hq : ∀ i, i < g.players_pool.length →
      ¬ ((g.players_pool.getD i default).timer < 0 ∧
         vnorm (vsub (g.players_pool.getD i default).vpos g.ball.vpos) ≤ DRIBBLE_DIST_X)) :
    ball_update_scan g = g := by
  simp only [ball_update_scan, hO, Option.map_none']
  rw [scan_fold_id]
  intro i hi
  rw [List.mem_range] at hi
  intro hqual
  simp only [scan_qual_info, ScanState.info, Option.map_none', Option.elim] at hqual
  obtain ⟨-, -, ht, hd⟩ := hqual
  exact hq i hi ⟨ht, hd⟩

/-- C5 amended: when the blended carry position of an owned ball leaves the
playing area, and no other player with an expired timer is within dribble
distance of the ball, one `Ball::update` leaves the ball unowned, stamps the
ex-owner's timer to 60, and gives the ball velocity `3 · angle_to_vec dir`
along the ex-owner's facing direction — a vector of length 3, hence nonzero. -/
theorem dispossession_outcome (g : Game) (h : ℕ)
    (hown : g.ball.owner = some h)
    (hlen : h < g.players_pool.length)
    (hoff : ¬ on_pitch
       (avg g.ball.vpos.1 ((g.players_pool.getD h default).vpos.1 +
          DRIBBLE_DIST_X * sin (g.players_pool.getD h default).dir))
       (avg g.ball.vpos.2 ((g.players_pool.getD h default).vpos.2 -
          DRIBBLE_DIST_Y * cos (g.players_pool.getD h default).dir)))
    (hno : ∀ i, i < g.players_pool.length → i ≠ h →
       ¬ ((g.players_pool.getD i default).timer < 0 ∧
          vnorm (vsub (g.players_pool.getD i default).vpos g.ball.vpos) ≤ DRIBBLE_DIST_X)) :
    (Ball.update g).ball.owner = none ∧
    ((Ball.update g).players_pool.getD h default).timer = 60 ∧
    (Ball.update g).ball.vel = vscale 3 (angle_to_vec (g.players_pool.getD h default).dir) ∧
    vnorm ((Ball.update g).ball.vel) = 3 := by
  have hpre := pre_scan_dispossess g h hown hoff
  have hscan : ball_update_scan (pre_scan g) = pre_scan g := by
    apply ball_update_scan_no_qual
    · rw [hpre]
    · rw [hpre]
      intro i hi
      rw [List.length_set] at hi
      by_cases hih : i = h
      · subst hih
        rw [getD_set_self _ _ _ hi]
        intro hc
        norm_num at hc
      · rw [getD_set_ne _ _ _ _ (Ne.symm hih)]
        exact hno i hi hih
  have hupdate : Ball.update g = pre_scan g := hscan
  rw [hupdate, hpre]
  dsimp only
  refine ⟨rfl, ?_, rfl, ?_⟩
  · rw [getD_set_self _ _ _ hlen]
  · rw [vnorm_vscale, vnorm_angle_to_vec]
    norm_num

theorem c5_off_pitch :
    ¬ on_pitch
       (avg c5_game.ball.vpos.1 ((c5_game.players_pool.getD 0 default).vpos.1 +
          DRIBBLE_DIST_X * sin (c5_game.players_pool.getD 0 default).dir))
       (avg c5_game.ball.vpos.2 ((c5_game.players_pool.getD 0 default).vpos.2 -
          DRIBBLE_DIST_Y * cos (c5_game.players_pool.getD 0 default).dir)) := by
  norm_num [on_pitch, Rect.collidepoint, PITCH_RECT, GOAL_0_RECT, GOAL_1_RECT,
    PITCH_BOUNDS_X, PITCH_BOUNDS_Y, GOAL_BOUNDS_X, GOAL_BOUNDS_Y,
    HALF_LEVEL_W, HALF_LEVEL_H, HALF_PITCH_W, HALF_PITCH_H, HALF_GOAL_W, GOAL_WIDTH,
    GOAL_DEPTH, avg, DRIBBLE_DIST_X, DRIBBLE_DIST_Y, sin_zero_dir, cos_zero_dir, c5_game]

theorem pre_scan_c5 : pre_scan c5_game = c5post := by
  rw [pre_scan_dispossess c5_game 0 rfl c5_off_pitch]
  norm_num [c5_game, c5post, vscale, angle_to_vec, sin_zero_dir, cos_zero_dir]

theorem c5_not_qual_zero :
    ¬ scan_qual_info c5post.players_pool ((-100, -116), none) 0 := by
  norm_num [scan_qual_info, c5post]

theorem c5_qual_one :
    scan_qual_info c5post.players_pool ((-100, -116), none) 1 := by
  norm_num [scan_qual_info, c5post, vnorm, vsub, DRIBBLE_DIST_X]

/-- C5 counterexample: an owned ball whose blended carry position leaves the
playing area is dispossessed during the tick, but an eligible opponent
standing on the ball acquires it in the same tick's scan, so after the update
the ball does have an owner. -/
theorem dispossessed_ball_can_be_reacquired_same_tick :
    c5_game.ball.owner = some 0 ∧
    (¬ on_pitch
       (avg c5_game.ball.vpos.1 ((c5_game.players_pool.getD 0 default).vpos.1 +
          DRIBBLE_DIST_X * sin (c5_game.players_pool.getD 0 default).dir))
       (avg c5_game.ball.vpos.2 ((c5_game.players_pool.getD 0 default).vpos.2 -
          DRIBBLE_DIST_Y * cos (c5_game.players_pool.getD 0 default).dir))) ∧
    (Ball.update c5_game).ball.owner = some 1 := by
  refine ⟨rfl, c5_off_pitch, ?_⟩
  show (ball_update_scan (pre_scan c5_game)).ball.owner = some 1
  rw [pre_scan_c5, ball_update_scan_owner]
  have hqlist : scan_qualifiers c5post = [1] := by
    simp only [scan_qualifiers]
    rw [show c5post.players_pool.length = 2 from rfl]
    rw [show List.range 2 = [0, 1] from rfl]
    rw [List.filter_cons_of_neg (by simpa using c5_not_qual_zero),
        List.filter_cons_of_pos (by exact decide_eq_true c5_qual_one),
        List.filter_nil]
  rw [hqlist]
  rfl

theorem c5w_off_pitch :
    ¬ on_pitch
       (avg c5w_game.ball.vpos.1 ((c5w_game.players_pool.getD 0 default).vpos.1 +
          DRIBBLE_DIST_X * sin (c5w_game.players_pool.getD 0 default).dir))
       (avg c5w_game.ball.vpos.2 ((c5w_game.players_pool.getD 0 default).vpos.2 -
          DRIBBLE_DIST_Y * cos (c5w_game.players_pool.getD 0 default).dir)) := by
  norm_num [on_pitch, Rect.collidepoint, PITCH_RECT, GOAL_0_RECT, GOAL_1_RECT,
    PITCH_BOUNDS_X, PITCH_BOUNDS_Y, GOAL_BOUNDS_X, GOAL_BOUNDS_Y,
    HALF_LEVEL_W, HALF_LEVEL_H, HALF_PITCH_W, HALF_PITCH_H, HALF_GOAL_W, GOAL_WIDTH,
    GOAL_DEPTH, avg, DRIBBLE_DIST_X, DRIBBLE_DIST_Y, sin_zero_dir, cos_zero_dir, c5w_game]

/-- Witness for the amended C5: with no other player near the ball, the
dispossession tick ends with no owner, the ex-owner's timer at 60, and a ball
speed of 3. -/
theorem dispossession_outcome_witness :
    (Ball.update c5w_game).ball.owner = none ∧
    ((Ball.update c5w_game).players_pool.getD 0 default).timer = 60 ∧
    vnorm ((Ball.update c5w_game).ball.vel) = 3 := by
  have h := dispossession_outcome c5w_game 0 rfl (by norm_num [c5w_game]) c5w_off_pitch
    (by intro i hi hne; exact absurd (Nat.lt_one_iff.mp hi) hne)
  exact ⟨h.1, h.2.1, h.2.2.2⟩

theorem scan_fold_active_inv (pool : List Player) (ho : ℤ) (tl : ℕ)
    (hteam : ∀ p ∈ pool, p.team < tl) :
    ∀ (L : List ℕ) (s : ScanState),
      (∀ i ∈ L, i < pool.length) →
      s.teams.length = tl →
      (∀ h, s.ball.owner = some h → h < pool.length ∧
        (s.teams.getD (pool.getD h default).team default).active_control_player = some h) →
      (L.foldl (scan_step pool ho) s).teams.length = tl ∧
      (∀ h, (L.foldl (scan_step pool ho) s).ball.owner = some h → h < pool.length ∧
        ((L.foldl (scan_step pool ho) s).teams.getD (pool.getD h default).team
          default).active_control_player = some h) := by
  intro L
  induction L with
  | nil =>
    intro s _ hlen hinv
    exact ⟨hlen, hinv⟩
  | cons i L ih =>
    intro s hL hlen hinv
    rw [List.foldl_cons]
    have hi : i < pool.length := hL i (by simp)
    by_cases hq : scan_qual_info pool s.info i
    · rw [scan_step_of_qual pool ho s i hq]
      have htm : (pool.getD i default).team < tl := hteam _ (getD_mem pool i hi)
      apply ih
      · intro j hj
        exact hL j (by simp [hj])
      · show (s.teams.set _ _).length = tl
        rw [List.length_set]
        exact hlen
      · intro h hh
        have hie : i = h := Option.some.inj hh
        subst hie
        refine ⟨hi, ?_⟩
        show ((s.teams.set (pool.getD i default).team _).getD (pool.getD i default).team
          default).active_control_player = some i
        rw [getD_set_self _ _ _ (by rw [hlen]; exact htm)]
    · rw [scan_step_of_not_qual pool ho s i hq]
      exact ih s (fun j hj => hL j (by simp [hj])) hlen hinv

theorem ball_update_scan_active_inv (G : Game)
    (hteam : ∀ p ∈ G.players_pool, p.team < G.teams.length)
    (hinv : active_control_inv G) :
    active_control_inv (ball_update_scan G) := by
  have hfold := scan_fold_active_inv G.players_pool G.difficulty.holdoff_timer
    G.teams.length hteam (List.range G.players_pool.length)
    ⟨G.ball, G.teams, G.ball.owner.map (fun t => (t, G.players_pool.getD t default))⟩
    (fun i hi => List.mem_range.mp hi) rfl hinv
  have hinfo := scan_fold_info G.players_pool G.difficulty.holdoff_timer
    (List.range G.players_pool.length)
    ⟨G.ball, G.teams, G.ball.owner.map (fun t => (t, G.players_pool.getD t default))⟩
  intro h hh
  have hh' : ((List.range G.players_pool.length).foldl
      (scan_step G.players_pool G.difficulty.holdoff_timer)
      ⟨G.ball, G.teams,
        G.ball.owner.map (fun t => (t, G.players_pool.getD t default))⟩).ball.owner
      = some h := hh
  obtain ⟨hlen2, hlookup⟩ := hfold.2 h hh'
  rcases hor : ((List.range G.players_pool.length).foldl
      (scan_step G.players_pool G.difficulty.holdoff_timer)
      ⟨G.ball, G.teams,
        G.ball.owner.map (fun t => (t, G.players_pool.getD t default))⟩).owner_r
    with _ | op
  · simp only [ball_update_scan, hor]
    exact ⟨hlen2, hlookup⟩
  · have h2 := congrArg (fun x => x.2) hinfo
    simp only [ScanState.info] at h2
    rw [hor] at h2
    simp only [Option.map_some'] at h2
    cases hGo : G.ball.owner with
    | none =>
      rw [hGo] at h2
      simp at h2
    | some t0 =>
      rw [hGo] at h2
      simp only [Option.map_some'] at h2
      have h3 := Option.some.inj h2
      have h31 : op.1 = t0 := congrArg Prod.fst h3
      have h32 : op.2.team = (G.players_pool.getD t0 default).team := congrArg Prod.snd h3
      have ht0 : t0 < G.players_pool.length := (hinv t0 hGo).1
      simp only [ball_update_scan, hor]
      constructor
      · rw [List.length_set]
        exact hlen2
      · by_cases heq : op.1 = h
        · subst heq
          rw [getD_set_self _ _ _ (by rw [h31]; exact ht0)]
          rw [h32, ← h31]
          exact hlookup
        · rw [getD_set_ne _ _ _ _ heq]
          exact hlookup

theorem pre_scan_teams (g : Game) : (pre_scan g).teams = g.teams := by
  cases hO : g.ball.owner with
  | none => simp only [pre_scan, ball_update_move, hO]
  | some h =>
    simp only [pre_scan, ball_update_move, hO]
    split_ifs <;> rfl

theorem pre_scan_pool_teams (g : Game)
    (hval : ∀ h, g.ball.owner = some h → h < g.players_pool.length) :
    ∀ p ∈ (pre_scan g).players_pool, ∃ q ∈ g.players_pool, p.team = q.team := by
  cases hO : g.ball.owner with
  | none =>
    simp only [pre_scan, ball_update_move, hO]
    intro p hp
    exact ⟨p, hp, rfl⟩
  | some h =>
    simp only [pre_scan, ball_update_move, hO]
    split_ifs with hp
    · intro p hp'
      exact ⟨p, hp', rfl⟩
    · intro p hp'
      rcases List.mem_or_eq_of_mem_set hp' with hmem | heq
      · exact ⟨p, hmem, rfl⟩
      · subst heq
        exact ⟨g.players_pool.getD h default, getD_mem _ _ (hval h hO), rfl⟩

theorem pre_scan_owner_cases (g : Game) :
    ((pre_scan g).players_pool = g.players_pool ∧
     (pre_scan g).ball.owner = g.ball.owner) ∨
    (pre_scan g).ball.owner = none := by
  cases hO : g.ball.owner with
  | none =>
    right
    simp only [pre_scan, ball_update_move, hO]
  | some h =>
    simp only [pre_scan, ball_update_move, hO]
    split_ifs with hp
    · left
      exact ⟨rfl, rfl⟩
    · right
      rfl

/-- C10: `Ball::update` preserves the invariant that whenever the ball has an
owner, the owner's team's active-control-player reference equals the owner —
every transfer in the scan sets both in the same step, and every path that
clears ownership leaves the property vacuously true.  The hypotheses are the
model's well-formedness: every player's team indexes the team list, and the
invariant holds before the tick. -/
theorem update_preserves_active_control_invariant (g : Game)
    (hteam : ∀ p ∈ g.players_pool, p.team < g.teams.length)
    (hinv : active_control_inv g) :
    active_control_inv (Ball.update g) := by
  have hval : ∀ h, g.ball.owner = some h → h < g.players_pool.length :=
    fun h hh => (hinv h hh).1
  have hteam3 : ∀ p ∈ (pre_scan g).players_pool, p.team < (pre_scan g).teams.length := by
    intro p hp
    obtain ⟨q, hq, hpq⟩ := pre_scan_pool_teams g hval p hp
    rw [pre_scan_teams, hpq]
    exact hteam q hq
  have hinv3 : active_control_inv (pre_scan g) := by
    rcases pre_scan_owner_cases g with ⟨hpool, howner⟩ | hnone
    · intro h hh
      rw [howner] at hh
      obtain ⟨h1, h2⟩ := hinv h hh
      constructor
      · rw [hpool]
        exact h1
      · rw [pre_scan_teams, hpool]
        exact h2
    · intro h hh
      rw [hnone] at hh
      exact absurd hh (by simp)
  exact ball_update_scan_active_inv (pre_scan g) hteam3 hinv3

theorem pre_scan_c10 : pre_scan c10_game = c10post := by
  simp only [pre_scan, ball_update_move, c10_game]
  norm_num [avg, on_pitch, Rect.collidepoint, PITCH_RECT, GOAL_0_RECT, GOAL_1_RECT,
    PITCH_BOUNDS_X, PITCH_BOUNDS_Y, GOAL_BOUNDS_X, GOAL_BOUNDS_Y,
    HALF_LEVEL_W, HALF_LEVEL_H, HALF_PITCH_W, HALF_PITCH_H, HALF_GOAL_W, GOAL_WIDTH,
    GOAL_DEPTH, DRIBBLE_DIST_X, DRIBBLE_DIST_Y, sin_zero_dir, cos_zero_dir, c10post]

theorem c10_not_qual_zero :
    ¬ scan_qual_info c10post.players_pool ((500, 692), some (0, 0)) 0 := by
  norm_num [scan_qual_info, c10post]

/-- Witness for C10 at a concrete game: one team, one player who owns the ball
at pitch centre and is the active control player; after the tick the player
still owns the ball and is still the team's active control player. -/
theorem update_preserves_active_control_invariant_witness :
    (Ball.update c10_game).ball.owner = some 0 ∧
    ((Ball.update c10_game).teams.getD
      ((Ball.update c10_game).players_pool.getD 0 default).team
      default).active_control_player = some 0 := by
  have hOwn : (Ball.update c10_game).ball.owner = some 0 := by
    show (ball_update_scan (pre_scan c10_game)).ball.owner = some 0
    rw [pre_scan_c10, ball_update_scan_owner]
    have hqlist : scan_qualifiers c10post = [] := by
      simp only [scan_qualifiers]
      rw [show c10post.players_pool.length = 1 from rfl]
      rw [show List.range 1 = [0] from rfl]
      rw [List.filter_cons_of_neg (by simpa using c10_not_qual_zero), List.filter_nil]
    rw [hqlist]
    rfl
  have hupd := update_preserves_active_control_invariant c10_game
    (by intro p hp
        simp only [c10_game, List.mem_singleton] at hp
        subst hp
        norm_num [c10_game])
    (by intro h hh
        have h0 : h = 0 := (Option.some.inj hh).symm
        subst h0
        exact ⟨by norm_num [c10_game], rfl⟩)
  exact ⟨hOwn, (hupd 0 hOwn).2⟩

end Soccer

end
